import Mathlib

/-!
Shallow embedding of the a25 memory/retrieval/reflection subsystem.

Translation conventions:
* Go `float32`/`float64` arithmetic is modelled over an arbitrary linear
  ordered field `K` (instantiated at `ℚ` for concrete evaluation and at `ℝ`
  for statements about `math.Exp`/`math.Sqrt`).
* `math.Exp` and `math.Sqrt` are explicit function parameters (fields of
  `Deps`); theorems about their analytic behaviour instantiate them with
  `Real.exp` and `Real.sqrt`.
* `time.Time` is modelled as a value of `K` measured in hours, so that Go's
  `time.Since(t).Hours()` becomes `now - t`.  All `time.Now()` reads inside
  one top-level operation are modelled as the single instant `now` at which
  the operation was invoked.
* The OpenAI client is modelled as two pure functions `embed` and
  `complete`; `strconv.ParseFloat` is the parameter `parseFloat`.  Go
  errors are strings, `fmt.Errorf("ctx: %w", e)` is string concatenation.
* `sort.Slice` (whose contract promises a permutation ordered by the
  comparison but does NOT promise stability) is a function parameter
  `sortSlice`; `SortContractOK` states the library contract.
* Go indexes strings by byte; lines are modelled as `List Char`, which
  agrees with the byte-level behaviour on ASCII data (all enumeration
  markers and parentheses handled by the parser are ASCII).
-/

/-! ## Strings: TrimSpace, Split, Index -/

/-- `unicode.IsSpace` restricted to ASCII (strings.TrimSpace cutset). -/
def isSpaceChar (c : Char) : Bool :=
  c = ' ' || c = '\t' || c = '\n' || c = Char.ofNat 11 || c = Char.ofNat 12 || c = '\r'

/-- Drop leading and trailing whitespace from a character list. -/
def trimChars (l : List Char) : List Char :=
  ((l.dropWhile isSpaceChar).reverse.dropWhile isSpaceChar).reverse

/-- Model of `strings.TrimSpace`. -/
def trimSpace (s : String) : String := String.mk (trimChars s.toList)

/-- Model of `strings.Split(s, "\n")`: `n` separators yield `n+1` pieces. -/
def splitLinesChars : List Char → List (List Char)
  | [] => [[]]
  | c :: cs =>
    if c = '\n' then [] :: splitLinesChars cs
    else
      match splitLinesChars cs with
      | [] => [[c]]
      | l :: ls => (c :: l) :: ls

/-! ## ResponseParser (reflect/reflection.go: parseQuestions, parseInsights) -/

/-- The enumeration-marker strip shared by both parser modes
(`if len(line) > 2 && (line[1] == '.' || line[1] == ')')`
`{ line = strings.TrimSpace(line[2:]) }`). -/
def stripEnum (line : String) : String :=
  if 2 < line.length ∧ (line.toList.getD 1 ' ' = '.' ∨ line.toList.getD 1 ' ' = ')') then
    trimSpace (String.mk (line.toList.drop 2))
  else line

/-- `parseQuestions`: split on newlines, trim, drop blanks, strip markers. -/
def parseQuestions (output : String) : List String :=
  (splitLinesChars output.toList).filterMap (fun l =>
    let line := trimSpace (String.mk l)
    if line = "" then none else some (stripEnum line))

/-- `idx := strings.Index(line, "("); if idx != -1 { line = line[:idx] }`. -/
def truncAtParen (line : String) : String :=
  match line.toList.findIdx? (fun c => c = '(') with
  | some idx => String.mk (line.toList.take idx)
  | none => line

/-- `parseInsights`: like `parseQuestions` but additionally truncates each
line at the first `'('` and trims the result. -/
def parseInsights (output : String) : List String :=
  (splitLinesChars output.toList).filterMap (fun l =>
    let line := trimSpace (String.mk l)
    if line = "" then none
    else some (trimSpace (truncAtParen (stripEnum line))))

/-! ## Data model (memory/memory.go) -/

/-- `MemoryObject`: one stored memory record. -/
structure MemoryObject (K : Type) where
  description : String
  creationTime : K
  lastAccessedTime : K
  importance : K
  embedding : List K
deriving DecidableEq

/-- `RetrievedMemory`: a record paired with its retrieval score. -/
structure RetrievedMemory (K : Type) where
  memory : MemoryObject K
  score : K
deriving DecidableEq

/-- One chat-completion request (model and temperature are the constants
`GPT4oMini` and `1` everywhere in the source, so only the two message
bodies are recorded). -/
structure ChatRequest where
  system : String
  user : String
deriving DecidableEq

/-- External dependencies of the subsystem: the embedding endpoint, the
completion endpoint, `strconv.ParseFloat`, `math.Exp`, `math.Sqrt`, and
the `sort.Slice` implementation. -/
structure Deps (K : Type) where
  embed : String → Except String (List K)
  complete : ChatRequest → Except String String
  parseFloat : String → Except String K
  exp : K → K
  sqrt : K → K
  sortSlice : (RetrievedMemory K → RetrievedMemory K → Bool) →
    List (RetrievedMemory K) → List (RetrievedMemory K)

/-! ## sort.Slice contract -/

/-- The documented contract of `sort.Slice`: the result is a permutation of
the input, and—provided the comparison behaves like a strict weak order—no
element is strictly `less` than its predecessor.  Stability is deliberately
NOT part of the contract ("The sort is not guaranteed to be stable"). -/
def SortContractOK {β : Type} (f : (β → β → Bool) → List β → List β) : Prop :=
  ∀ (less : β → β → Bool) (l : List β),
    List.Perm (f less l) l ∧
    ((∀ a b, less a b = true → less b a = false) →
     (∀ a b c, less a b = false → less b c = false → less a c = false) →
     List.Chain' (fun a b => less b a = false) (f less l))

/-- A contract-satisfying implementation that happens to be stable. -/
def sortSliceStable {β : Type} (less : β → β → Bool) (l : List β) : List β :=
  List.insertionSort (fun a b => less b a = false) l

/-- A contract-satisfying implementation that reverses ties (stable sort of
the reversed input): a behaviour `sort.Slice` is allowed to exhibit. -/
def sortSliceAnti {β : Type} (less : β → β → Bool) (l : List β) : List β :=
  sortSliceStable less l.reverse

section SortLemmas

variable {β : Type}

theorem sortContract_chain (less : β → β → Bool) (l : List β)
    (hasym : ∀ a b, less a b = true → less b a = false)
    (hftrans : ∀ a b c, less a b = false → less b c = false → less a c = false) :
    List.Chain' (fun a b => less b a = false) (sortSliceStable less l) := by
  letI : IsTotal β (fun a b => less b a = false) := ⟨by
    intro a b
    by_cases h : less b a = false
    · exact Or.inl h
    · refine Or.inr (hasym b a ?_)
      revert h; cases less b a <;> simp⟩
  letI : IsTrans β (fun a b => less b a = false) :=
    ⟨fun a b c hab hbc => hftrans c b a hbc hab⟩
  exact List.Pairwise.chain' (List.sorted_insertionSort _ l)

theorem sortSliceStable_ok : SortContractOK (sortSliceStable (β := β)) := by
  intro less l
  exact ⟨List.perm_insertionSort _ l, fun h1 h2 => sortContract_chain less l h1 h2⟩

theorem sortSliceAnti_ok : SortContractOK (sortSliceAnti (β := β)) := by
  intro less l
  refine ⟨(List.perm_insertionSort _ _).trans l.reverse_perm,
    fun h1 h2 => sortContract_chain less l.reverse h1 h2⟩

end SortLemmas

/-! ## Scorer (agent.go related: cosineSimilarity) -/

variable {K : Type}

/-- The running sums of `cosineSimilarity`'s loop: `dotProduct a b` is
`Σ a[i]*b[i]` (the source iterates over the indices of `a`; the recursion
stops at the shorter list, which coincides for the equal-dimension vectors
the store invariant guarantees). -/
def dotProduct [LinearOrderedField K] : List K → List K → K
  | a :: as, b :: bs => a * b + dotProduct as bs
  | _, _ => 0

/-- `cosineSimilarity`: returns `0` when either squared norm is `0`,
otherwise `dot / (sqrt(normA) * sqrt(normB))`. -/
def cosineSimilarity [LinearOrderedField K] (sqrt : K → K) (a b : List K) : K :=
  if dotProduct a a = 0 ∨ dotProduct b b = 0 then 0
  else dotProduct a b / (sqrt (dotProduct a a) * sqrt (dotProduct b b))

/-! ## MemoryStore (memory/memory.go) -/

/-- System prompt of `rateImportance`. -/
def rateImportanceSys : String :=
  "On a scale of 1 to 10, where 1 is mundane (e.g., brushing teeth) and 10 is poignant (e.g., a life-changing event), rate the importance of the given reflection.  Output a single float value only, e.g., 7.5.  Include no other comment or opinion."

/-- `parseImportanceRating`: `strconv.ParseFloat(strings.TrimSpace(response), 32)`. -/
def parseImportanceRating [LinearOrderedField K] (d : Deps K) (response : String) :
    Except String K :=
  d.parseFloat (trimSpace response)

/-- `rateImportance`: one completion call then the numeric parse; either
failure propagates unwrapped. -/
def rateImportance [LinearOrderedField K] (d : Deps K) (reflection : String) :
    Except String K :=
  match d.complete ⟨rateImportanceSys, reflection⟩ with
  | .error e => .error e
  | .ok resp => parseImportanceRating d resp

/-- `AddMemory`: embed, rate, then append a record with
`CreationTime = LastAccessedTime = now`.  Returns the new store state and
the error result; on error the state is the unchanged input store. -/
def addMemory [LinearOrderedField K] (d : Deps K) (now : K)
    (ms : List (MemoryObject K)) (description : String) :
    List (MemoryObject K) × Except String Unit :=
  match d.embed description with
  | .error e => (ms, .error ("failed to get embedding: " ++ e))
  | .ok emb =>
    match rateImportance d description with
    | .error e => (ms, .error ("failed to rate importance: " ++ e))
    | .ok importance =>
      (ms ++ [{ description := description, creationTime := now,
                lastAccessedTime := now, importance := importance,
                embedding := emb }], .ok ())

/-! ## RetrievalEngine (RetrieveMemories) -/

/-- The body of `RetrieveMemories`' loop over the store: re-embed each
record's description, score it against the query embedding, record the
(pre-update) record with its score, and set `LastAccessedTime := now`.
An embedding failure aborts the loop, keeping the updates already made. -/
def retrieveLoop [LinearOrderedField K] (d : Deps K) (queryEmbedding : List K)
    (now : K) :
    List (MemoryObject K) →
      List (MemoryObject K) × Except String (List (RetrievedMemory K))
  | [] => ([], .ok [])
  | m :: rest =>
    match d.embed m.description with
    | .error e => (m :: rest, .error e)
    | .ok memoryEmbedding =>
      let relevance := cosineSimilarity d.sqrt queryEmbedding memoryEmbedding
      let hoursSinceAccess := now - m.lastAccessedTime
      let recencyScore := d.exp (-hoursSinceAccess / 24)
      let importanceScore := m.importance / 10
      let totalScore := relevance + recencyScore + importanceScore
      match retrieveLoop d queryEmbedding now rest with
      | (rest', .error e) =>
        ({ m with lastAccessedTime := now } :: rest', .error e)
      | (rest', .ok retrieved) =>
        ({ m with lastAccessedTime := now } :: rest',
          .ok (⟨m, totalScore⟩ :: retrieved))

/-- The comparison passed to `sort.Slice`: descending by score. -/
def scoreDescending [LinearOrderedField K]
    (a b : RetrievedMemory K) : Bool :=
  decide (b.score < a.score)

/-- `RetrieveMemories`: embed the query, score and touch every record,
then sort the scored list descending by score. -/
def retrieveMemories [LinearOrderedField K] (d : Deps K) (now : K)
    (ms : List (MemoryObject K)) (query : String) :
    List (MemoryObject K) × Except String (List (RetrievedMemory K)) :=
  match d.embed query with
  | .error e => (ms, .error e)
  | .ok queryEmbedding =>
    match retrieveLoop d queryEmbedding now ms with
    | (ms', .error e) => (ms', .error e)
    | (ms', .ok retrieved) => (ms', .ok (d.sortSlice scoreDescending retrieved))

/-! ## ReflectionEngine (reflect/reflection.go) -/

/-- System prompt of `generateReflectionQuestions`. -/
def reflectionQuestionsSys : String :=
  "Given only the information provided below, what are 3 most salient high-level questions we can answer about the subjects in the statements?"

/-- System prompt of `generateInsights`. -/
def insightsSys : String :=
  "What 5 high-level insights can you infer from the given statements? (example format: Insight (because of statements 1, 2, 3))"

/-- `generateReflectionQuestions`: one completion over the joined memory
texts, parsed in questions mode.  No emptiness check is performed. -/
def generateReflectionQuestions (complete : ChatRequest → Except String String)
    (memories : List String) : Except String (List String) :=
  match complete ⟨reflectionQuestionsSys, String.intercalate "\n" memories⟩ with
  | .error e => .error e
  | .ok output => .ok (parseQuestions output)

/-- The user prompt of `generateInsights` (fmt.Sprintf with the question
and the numbered retrieved statements). -/
def insightsUserPrompt [LinearOrderedField K] (question : String)
    (memories : List (RetrievedMemory K)) : String :=
  "Statements about the question \"" ++ question ++ "\":\n" ++
    String.intercalate "\n"
      (memories.enum.map (fun p => toString (p.1 + 1) ++ ". " ++ p.2.memory.description))

/-- `generateInsights`: one completion, parsed in insights mode. -/
def generateInsights [LinearOrderedField K]
    (complete : ChatRequest → Except String String) (question : String)
    (memories : List (RetrievedMemory K)) : Except String (List String) :=
  match complete ⟨insightsSys, insightsUserPrompt question memories⟩ with
  | .error e => .error e
  | .ok output => .ok (parseInsights output)

/-- The inner insight loop of `Reflect`: `ms.AddMemory(insight)` with the
returned error DISCARDED — the state advances regardless of failure. -/
def appendInsights [LinearOrderedField K] (d : Deps K) (now : K)
    (ms : List (MemoryObject K)) : List String → List (MemoryObject K)
  | [] => ms
  | insight :: rest => appendInsights d now (addMemory d now ms insight).1 rest

/-- The per-question loop of `Reflect`: retrieve over the CURRENT store,
generate insights, append them, continue with the next question.  A
retrieval or completion failure aborts, returning the store as mutated
so far. -/
def reflectLoop [LinearOrderedField K] (d : Deps K) (now : K)
    (ms : List (MemoryObject K)) :
    List String → List (MemoryObject K) × Except String Unit
  | [] => (ms, .ok ())
  | question :: rest =>
    match retrieveMemories d now ms question with
    | (ms', .error e) => (ms', .error e)
    | (ms', .ok retrieved) =>
      match generateInsights d.complete question retrieved with
      | .error e => (ms', .error e)
      | .ok insights =>
        reflectLoop d now (appendInsights d now ms' insights) rest

/-- `Reflect`: generate questions from the given memory window, then run
the question loop against the shared store. -/
def reflect [LinearOrderedField K] (d : Deps K) (now : K)
    (memories : List (MemoryObject K)) (ms : List (MemoryObject K)) :
    List (MemoryObject K) × Except String Unit :=
  match generateReflectionQuestions d.complete (memories.map (·.description)) with
  | .error e => (ms, .error e)
  | .ok questions => reflectLoop d now ms questions

/-! ## General lemmas about the retrieval loop -/

deriving instance DecidableEq for Except

theorem scoreDescending_false_iff [LinearOrderedField K] (a b : RetrievedMemory K) :
    scoreDescending a b = false ↔ a.score ≤ b.score := by
  simp [scoreDescending, not_lt]

theorem scoreDescending_asymm [LinearOrderedField K] (a b : RetrievedMemory K)
    (h : scoreDescending a b = true) : scoreDescending b a = false := by
  simp [scoreDescending] at h ⊢
  exact h.le

theorem scoreDescending_ftrans [LinearOrderedField K] (a b c : RetrievedMemory K)
    (hab : scoreDescending a b = false) (hbc : scoreDescending b c = false) :
    scoreDescending a c = false := by
  rw [scoreDescending_false_iff] at hab hbc ⊢
  exact le_trans hab hbc

/-- Unfolding equation: the loop body when the record's embedding fails. -/
theorem retrieveLoop_cons_embedErr [LinearOrderedField K] (d : Deps K) (qe : List K)
    (now : K) (m : MemoryObject K) (rest : List (MemoryObject K)) (e : String)
    (hemb : d.embed m.description = .error e) :
    retrieveLoop d qe now (m :: rest) = (m :: rest, .error e) := by
  rw [retrieveLoop, hemb]

/-- Unfolding equation: the loop body when the record embeds but the rest of
the loop fails. -/
theorem retrieveLoop_cons_restErr [LinearOrderedField K] (d : Deps K) (qe : List K)
    (now : K) (m : MemoryObject K) (rest : List (MemoryObject K)) (v : List K)
    (rest' : List (MemoryObject K)) (e : String)
    (hemb : d.embed m.description = .ok v)
    (hrec : retrieveLoop d qe now rest = (rest', .error e)) :
    retrieveLoop d qe now (m :: rest) =
      ({ m with lastAccessedTime := now } :: rest', .error e) := by
  rw [retrieveLoop, hemb, hrec]

/-- Unfolding equation: the loop body on the fully successful path. -/
theorem retrieveLoop_cons_ok [LinearOrderedField K] (d : Deps K) (qe : List K)
    (now : K) (m : MemoryObject K) (rest : List (MemoryObject K)) (v : List K)
    (rest' : List (MemoryObject K)) (retrieved : List (RetrievedMemory K))
    (hemb : d.embed m.description = .ok v)
    (hrec : retrieveLoop d qe now rest = (rest', .ok retrieved)) :
    retrieveLoop d qe now (m :: rest) =
      ({ m with lastAccessedTime := now } :: rest',
        .ok (⟨m, cosineSimilarity d.sqrt qe v
          + d.exp (-(now - m.lastAccessedTime) / 24) + m.importance / 10⟩ :: retrieved)) := by
  rw [retrieveLoop, hemb, hrec]

/-- On success, the retrieval loop sets `lastAccessedTime := now` on every
record and changes nothing else about the store. -/
theorem retrieveLoop_ok_state [LinearOrderedField K] (d : Deps K) (qe : List K)
    (now : K) (ms : List (MemoryObject K)) :
    ∀ (out : List (RetrievedMemory K)), (retrieveLoop d qe now ms).2 = .ok out →
      (retrieveLoop d qe now ms).1 =
        ms.map (fun m => { m with lastAccessedTime := now }) := by
  induction ms with
  | nil => intro out _; rfl
  | cons m rest ih =>
    intro out h
    cases hemb : d.embed m.description with
    | error e => rw [retrieveLoop_cons_embedErr d qe now m rest e hemb] at h; simp at h
    | ok v =>
      cases hrec : retrieveLoop d qe now rest with
      | mk rest' res =>
        cases res with
        | error e =>
          rw [retrieveLoop_cons_restErr d qe now m rest v rest' e hemb hrec] at h
          simp at h
        | ok retrieved =>
          rw [retrieveLoop_cons_ok d qe now m rest v rest' retrieved hemb hrec]
          have h1 := ih retrieved (by rw [hrec])
          rw [hrec] at h1
          dsimp only at h1 ⊢
          simp [h1]

/-- On success, the retrieval loop returns exactly the store's records (in
order, with their pre-update fields) paired with scores. -/
theorem retrieveLoop_ok_memories [LinearOrderedField K] (d : Deps K) (qe : List K)
    (now : K) (ms : List (MemoryObject K)) :
    ∀ (out : List (RetrievedMemory K)), (retrieveLoop d qe now ms).2 = .ok out →
      out.map (fun r => r.memory) = ms := by
  induction ms with
  | nil => intro out h; simp [retrieveLoop] at h; simp [← h]
  | cons m rest ih =>
    intro out h
    cases hemb : d.embed m.description with
    | error e => rw [retrieveLoop_cons_embedErr d qe now m rest e hemb] at h; simp at h
    | ok v =>
      cases hrec : retrieveLoop d qe now rest with
      | mk rest' res =>
        cases res with
        | error e =>
          rw [retrieveLoop_cons_restErr d qe now m rest v rest' e hemb hrec] at h
          simp at h
        | ok retrieved =>
          rw [retrieveLoop_cons_ok d qe now m rest v rest' retrieved hemb hrec] at h
          have := ih retrieved (by rw [hrec])
          simp only [Except.ok.injEq] at h
          rw [← h]
          simp [this]

/-- When every record's description re-embeds to exactly the embedding
stored in it, the retrieval loop is fully determined: it touches every
record and scores each one by the blended formula. -/
theorem retrieveLoop_eq_of_embeds [LinearOrderedField K] (d : Deps K) (qe : List K)
    (now : K) (ms : List (MemoryObject K))
    (h : ∀ m ∈ ms, d.embed m.description = .ok m.embedding) :
    retrieveLoop d qe now ms =
      (ms.map (fun m => { m with lastAccessedTime := now }),
       .ok (ms.map (fun m => ⟨m,
         cosineSimilarity d.sqrt qe m.embedding
           + d.exp (-(now - m.lastAccessedTime) / 24) + m.importance / 10⟩))) := by
  induction ms with
  | nil => rfl
  | cons m rest ih =>
    have hm := h m (List.mem_cons_self m rest)
    have hrest := ih (fun x hx => h x (List.mem_cons_of_mem m hx))
    rw [retrieveLoop, hm, hrest]
    simp

/-- Unfolding equation: `RetrieveMemories` when the query embedding fails. -/
theorem retrieveMemories_embedErr [LinearOrderedField K] (d : Deps K) (now : K)
    (ms : List (MemoryObject K)) (query : String) (e : String)
    (hq : d.embed query = .error e) :
    retrieveMemories d now ms query = (ms, .error e) := by
  rw [retrieveMemories, hq]

/-- Unfolding equation: `RetrieveMemories` when a record embedding fails. -/
theorem retrieveMemories_loopErr [LinearOrderedField K] (d : Deps K) (now : K)
    (ms ms' : List (MemoryObject K)) (query : String) (qe : List K) (e : String)
    (hq : d.embed query = .ok qe)
    (hl : retrieveLoop d qe now ms = (ms', .error e)) :
    retrieveMemories d now ms query = (ms', .error e) := by
  rw [retrieveMemories, hq]
  dsimp only
  rw [hl]

/-- Unfolding equation: `RetrieveMemories` on the successful path: the
scored list is handed to `sort.Slice` with the descending comparison. -/
theorem retrieveMemories_ok_eq [LinearOrderedField K] (d : Deps K) (now : K)
    (ms ms' : List (MemoryObject K)) (query : String) (qe : List K)
    (scored : List (RetrievedMemory K))
    (hq : d.embed query = .ok qe)
    (hl : retrieveLoop d qe now ms = (ms', .ok scored)) :
    retrieveMemories d now ms query =
      (ms', .ok (d.sortSlice scoreDescending scored)) := by
  rw [retrieveMemories, hq]
  dsimp only
  rw [hl]

/-- Inversion of a successful `retrieveMemories` call into its parts. -/
theorem retrieveMemories_ok_parts [LinearOrderedField K] (d : Deps K) (now : K)
    (ms : List (MemoryObject K)) (query : String) (out : List (RetrievedMemory K))
    (h : (retrieveMemories d now ms query).2 = .ok out) :
    ∃ qe scored, d.embed query = .ok qe ∧
      (retrieveLoop d qe now ms).2 = .ok scored ∧
      out = d.sortSlice scoreDescending scored ∧
      (retrieveMemories d now ms query).1 = (retrieveLoop d qe now ms).1 := by
  cases hq : d.embed query with
  | error e => rw [retrieveMemories_embedErr d now ms query e hq] at h; simp at h
  | ok qe =>
    cases hl : retrieveLoop d qe now ms with
    | mk ms' res =>
      cases res with
      | error e =>
        rw [retrieveMemories_loopErr d now ms ms' query qe e hq hl] at h
        simp at h
      | ok scored =>
        rw [retrieveMemories_ok_eq d now ms ms' query qe scored hq hl] at h ⊢
        simp only [Except.ok.injEq] at h
        exact ⟨qe, scored, rfl, by rw [hl], h.symm, by rw [hl]⟩

/-! ## AddMemory characterizations -/

/-- Unfolding equation: `AddMemory` when the embedding call fails. -/
theorem addMemory_embedErr [LinearOrderedField K] (d : Deps K) (now : K)
    (ms : List (MemoryObject K)) (description : String) (e : String)
    (hemb : d.embed description = .error e) :
    addMemory d now ms description = (ms, .error ("failed to get embedding: " ++ e)) := by
  rw [addMemory, hemb]

/-- Unfolding equation: `AddMemory` when the importance rating fails. -/
theorem addMemory_rateErr [LinearOrderedField K] (d : Deps K) (now : K)
    (ms : List (MemoryObject K)) (description : String) (v : List K) (e : String)
    (hemb : d.embed description = .ok v)
    (hrate : rateImportance d description = .error e) :
    addMemory d now ms description = (ms, .error ("failed to rate importance: " ++ e)) := by
  rw [addMemory, hemb]
  dsimp only
  rw [hrate]

/-- Unfolding equation: `AddMemory` on success appends exactly one record,
whose `creationTime` and `lastAccessedTime` are both the present call
instant. -/
theorem addMemory_ok [LinearOrderedField K] (d : Deps K) (now : K)
    (ms : List (MemoryObject K)) (description : String) (v : List K) (imp : K)
    (hemb : d.embed description = .ok v)
    (hrate : rateImportance d description = .ok imp) :
    addMemory d now ms description =
      (ms ++ [{ description := description, creationTime := now,
                lastAccessedTime := now, importance := imp, embedding := v }],
       .ok ()) := by
  rw [addMemory, hemb]
  dsimp only
  rw [hrate]

/-- Claim C5: if `Append` fails for any reason (embedding error, rating
error, or unparseable rating), then no record is appended and the store is
exactly as it was before the call. -/
theorem c5_append_failure_is_atomic [LinearOrderedField K] (d : Deps K) (now : K)
    (ms : List (MemoryObject K)) (description : String) (e : String)
    (h : (addMemory d now ms description).2 = .error e) :
    (addMemory d now ms description).1 = ms := by
  cases hemb : d.embed description with
  | error e' => rw [addMemory_embedErr d now ms description e' hemb]
  | ok v =>
    cases hrate : rateImportance d description with
    | error e' => rw [addMemory_rateErr d now ms description v e' hemb hrate]
    | ok imp =>
      rw [addMemory_ok d now ms description v imp hemb hrate] at h
      simp at h

/-- A fully healthy dependency bundle over `ℚ` (used to exercise theorems
on concrete inputs). -/
def plainDeps : Deps ℚ :=
  { embed := fun _ => .ok [1]
    complete := fun _ => .ok ""
    parseFloat := fun _ => .ok 5
    exp := fun _ => 0
    sqrt := fun x => x
    sortSlice := sortSliceStable }

/-- `plainDeps` with a failing embedding endpoint. -/
def embedFailDeps : Deps ℚ :=
  { plainDeps with embed := fun _ => .error "down" }

theorem c5_append_failure_is_atomic_witness :
    (addMemory embedFailDeps 0 [] "lunch").1 = [] :=
  c5_append_failure_is_atomic embedFailDeps 0 [] "lunch"
    "failed to get embedding: down" rfl

/-- Claim C7: every successful `Append` appends one record whose
`lastAccessedAt` equals its `createdAt` exactly (both are the call
instant). -/
theorem c7_created_equals_accessed [LinearOrderedField K] (d : Deps K) (now : K)
    (ms : List (MemoryObject K)) (description : String) (v : List K) (imp : K)
    (hemb : d.embed description = .ok v)
    (hrate : rateImportance d description = .ok imp) :
    addMemory d now ms description =
      (ms ++ [{ description := description, creationTime := now,
                lastAccessedTime := now, importance := imp, embedding := v }],
       .ok ()) ∧
    (∀ rec : MemoryObject K, (addMemory d now ms description).1 = ms ++ [rec] →
      rec.lastAccessedTime = rec.creationTime) := by
  have heq := addMemory_ok d now ms description v imp hemb hrate
  refine ⟨heq, fun rec hrec => ?_⟩
  rw [heq] at hrec
  simp only [List.append_cancel_left_eq, List.cons.injEq, and_true] at hrec
  rw [← hrec]

theorem c7_created_equals_accessed_witness :
    addMemory plainDeps 3 [] "lunch" =
      ([{ description := "lunch", creationTime := 3,
          lastAccessedTime := 3, importance := 5, embedding := [1] }], .ok ()) :=
  (c7_created_equals_accessed plainDeps 3 [] "lunch" [1] 5 rfl rfl).1

/-- Claim C9: a successful `Retrieve` sets `lastAccessedAt := now` on every
record in the store and changes nothing else — descriptions, creation
times, importances, embeddings, record count and record order are all
preserved. -/
theorem c9_retrieve_touches_everything [LinearOrderedField K] (d : Deps K)
    (now : K) (ms : List (MemoryObject K)) (query : String)
    (out : List (RetrievedMemory K))
    (h : (retrieveMemories d now ms query).2 = .ok out) :
    (retrieveMemories d now ms query).1 =
      ms.map (fun m => { m with lastAccessedTime := now }) := by
  obtain ⟨qe, scored, _, hl, _, hstate⟩ :=
    retrieveMemories_ok_parts d now ms query out h
  rw [hstate]
  exact retrieveLoop_ok_state d qe now ms scored hl

/-- Concrete store record used to exercise retrieval claims over `ℚ`. -/
def recW : MemoryObject ℚ := ⟨"w", 0, 0, 5, [1]⟩

theorem c9_retrieve_touches_everything_witness :
    (retrieveMemories plainDeps 7 [recW] "q").1 =
      [recW].map (fun m => { m with lastAccessedTime := (7 : ℚ) }) :=
  c9_retrieve_touches_everything plainDeps 7 [recW] "q" [⟨recW, 3/2⟩] (by
    have hloop : retrieveLoop plainDeps [1] 7 [recW] =
        ([{ recW with lastAccessedTime := (7 : ℚ) }], .ok [⟨recW, 3/2⟩]) := by
      rw [retrieveLoop_cons_ok plainDeps [1] 7 recW [] [1] [] [] rfl rfl]
      norm_num [cosineSimilarity, dotProduct, plainDeps, recW]
    rw [retrieveMemories_ok_eq plainDeps 7 [recW]
      [{ recW with lastAccessedTime := (7 : ℚ) }] "q" [1] [⟨recW, 3/2⟩] rfl hloop]
    rfl)

/-! ## Cosine similarity properties (C8) -/

theorem dotProduct_comm [LinearOrderedField K] :
    ∀ (a b : List K), dotProduct a b = dotProduct b a
  | [], [] => rfl
  | [], _ :: _ => rfl
  | _ :: _, [] => rfl
  | a :: as, b :: bs => by
    rw [dotProduct, dotProduct, mul_comm, dotProduct_comm as bs]

theorem dotProduct_self_nonneg [LinearOrderedField K] :
    ∀ (v : List K), 0 ≤ dotProduct v v
  | [] => le_refl 0
  | a :: as => by
    rw [dotProduct]
    exact add_nonneg (mul_self_nonneg a) (dotProduct_self_nonneg as)

theorem dotProduct_self_pos [LinearOrderedField K] :
    ∀ (v : List K), (∃ x ∈ v, x ≠ 0) → 0 < dotProduct v v
  | [], h => by simp at h
  | a :: as, h => by
    rw [dotProduct]
    rcases h with ⟨x, hx, hxne⟩
    rcases List.mem_cons.mp hx with rfl | hmem
    · exact add_pos_of_pos_of_nonneg (mul_self_pos.mpr hxne) (dotProduct_self_nonneg as)
    · exact add_pos_of_nonneg_of_pos (mul_self_nonneg a)
        (dotProduct_self_pos as ⟨x, hmem, hxne⟩)

/-- Claim C8: with `math.Sqrt`, (i) a non-zero vector has cosine similarity
exactly 1 with itself, (ii) cosine similarity is symmetric, and (iii) a
zero-magnitude vector on either side yields exactly 0. -/
theorem c8_cosine_properties :
    (∀ v : List ℝ, (∃ x ∈ v, x ≠ 0) → cosineSimilarity Real.sqrt v v = 1)
  ∧ (∀ a b : List ℝ, cosineSimilarity Real.sqrt a b = cosineSimilarity Real.sqrt b a)
  ∧ (∀ a b : List ℝ, dotProduct a a = 0 ∨ dotProduct b b = 0 →
      cosineSimilarity Real.sqrt a b = 0) := by
  refine ⟨fun v hv => ?_, fun a b => ?_, fun a b h => ?_⟩
  · have hpos := dotProduct_self_pos v hv
    rw [cosineSimilarity, if_neg (by push_neg; exact ⟨ne_of_gt hpos, ne_of_gt hpos⟩),
      Real.mul_self_sqrt (le_of_lt hpos)]
    exact div_self (ne_of_gt hpos)
  · rw [cosineSimilarity, cosineSimilarity, dotProduct_comm a b]
    exact if_congr or_comm rfl (by rw [mul_comm])
  · rw [cosineSimilarity, if_pos h]

theorem c8_cosine_properties_witness :
    cosineSimilarity Real.sqrt [(1 : ℝ), 0] [1, 0] = 1 ∧
    cosineSimilarity Real.sqrt [(0 : ℝ)] [1] = 0 :=
  ⟨c8_cosine_properties.1 [1, 0] ⟨1, by simp, one_ne_zero⟩,
   c8_cosine_properties.2.2 [0] [1] (Or.inl (by norm_num [dotProduct]))⟩

/-! ## Parser marker stripping (C10) -/

/-- Claim C10: in both parser modes, any trimmed non-blank line longer than
two characters whose second character is `'.'` or `')'` has its first two
characters stripped (and the remainder trimmed), regardless of whether the
first character is a digit or whitespace follows the marker. -/
theorem c10_marker_strip :
    (∀ line : String, 2 < line.length →
        line.toList.getD 1 ' ' = '.' ∨ line.toList.getD 1 ' ' = ')' →
        stripEnum line = trimSpace (String.mk (line.toList.drop 2)))
  ∧ parseQuestions "A) hello" = ["hello"]
  ∧ parseQuestions "e.g. example" = ["g. example"]
  ∧ parseInsights "A) hello" = ["hello"]
  ∧ parseInsights "e.g. example" = ["g. example"] := by
  refine ⟨fun line h1 h2 => ?_, by decide, by decide, by decide, by decide⟩
  rw [stripEnum, if_pos ⟨h1, h2⟩]

theorem c10_marker_strip_witness :
    stripEnum "A) hello" = trimSpace (String.mk ("A) hello".toList.drop 2)) :=
  c10_marker_strip.1 "A) hello" (by decide) (by decide)

/-! ## Retrieval scoring (C1) -/

/-- Claim C1: a successful `Retrieve` scores every record as
`cosineSimilarity(queryEmbedding, record.embedding)
 + exp(-hoursSince(lastAccessedAt, now)/24) + importance/10`
(the loop re-embeds each record's description; by the append-only
lifecycle, that embedding coincides with the one stored in the record,
which is the stated hypothesis), and the documented scenario — importance
8, last accessed 2 hours before the call, cosine similarity 0.5 — scores
`0.5 + e^(-1/12) + 0.8 = 2.220 ± 0.01`. -/
theorem c1_retrieve_score_formula :
    (∀ (d : Deps ℝ), SortContractOK d.sortSlice →
      ∀ (now : ℝ) (ms : List (MemoryObject ℝ)) (query : String) (qe : List ℝ)
        (out : List (RetrievedMemory ℝ)),
        d.embed query = .ok qe →
        (∀ m ∈ ms, d.embed m.description = .ok m.embedding) →
        (retrieveMemories d now ms query).2 = .ok out →
        ∀ r ∈ out, r.score =
          cosineSimilarity d.sqrt qe r.memory.embedding
            + d.exp (-(now - r.memory.lastAccessedTime) / 24)
            + r.memory.importance / 10)
  ∧ (∀ (d : Deps ℝ), SortContractOK d.sortSlice → d.exp = Real.exp →
      ∀ (now : ℝ) (rec : MemoryObject ℝ) (query : String) (qe : List ℝ),
        d.embed query = .ok qe →
        d.embed rec.description = .ok rec.embedding →
        cosineSimilarity d.sqrt qe rec.embedding = 1/2 →
        rec.importance = 8 →
        rec.lastAccessedTime = now - 2 →
        (retrieveMemories d now [rec] query).2 =
          .ok [⟨rec, 1/2 + Real.exp (-(1/12)) + 8/10⟩] ∧
        |((1:ℝ)/2 + Real.exp (-(1/12)) + 8/10) - 2.220| ≤ 0.01) := by
  constructor
  · intro d hd now ms query qe out hq hms hok r hr
    have hloop := retrieveLoop_eq_of_embeds d qe now ms hms
    have heq := retrieveMemories_ok_eq d now ms _ query qe _ hq hloop
    rw [heq] at hok
    simp only [Except.ok.injEq] at hok
    rw [← hok] at hr
    have hperm := (hd scoreDescending (ms.map (fun m =>
      (⟨m, cosineSimilarity d.sqrt qe m.embedding
        + d.exp (-(now - m.lastAccessedTime) / 24)
        + m.importance / 10⟩ : RetrievedMemory ℝ)))).1
    have hmem := hperm.mem_iff.mp hr
    rw [List.mem_map] at hmem
    obtain ⟨m, _, rfl⟩ := hmem
    rfl
  · intro d hd hexp now rec query qe hq hm hcos himp hlast
    constructor
    · have hms : ∀ m ∈ [rec], d.embed m.description = .ok m.embedding := by
        intro m hm'
        rcases List.mem_singleton.mp hm' with rfl
        exact hm
      have hloop := retrieveLoop_eq_of_embeds d qe now [rec] hms
      have heq := retrieveMemories_ok_eq d now [rec] _ query qe _ hq hloop
      rw [heq]
      dsimp only [List.map]
      have hperm := (hd scoreDescending
        [⟨rec, cosineSimilarity d.sqrt qe rec.embedding
          + d.exp (-(now - rec.lastAccessedTime) / 24) + rec.importance / 10⟩]).1
      rw [List.perm_singleton.mp hperm]
      rw [hcos, himp, hlast, hexp]
      have harg : -(now - (now - 2)) / 24 = -((1:ℝ)/12) := by ring
      rw [harg]
    · have h1 : (11:ℝ)/12 ≤ Real.exp (-(1/12)) := by
        have := Real.add_one_le_exp (-(1/12) : ℝ)
        linarith
      have h2 : Real.exp (-(1/12) : ℝ) ≤ 12/13 := by
        have h3 := Real.add_one_le_exp ((1:ℝ)/12)
        rw [Real.exp_neg]
        calc (Real.exp ((1:ℝ)/12))⁻¹ ≤ ((13:ℝ)/12)⁻¹ := by
              apply inv_anti₀ (by norm_num)
              linarith
          _ = 12/13 := by norm_num
      rw [abs_le]
      constructor <;> linarith

/-- Dependencies over `ℝ` with the genuine `math.Exp`/`math.Sqrt` and an
embedding endpoint realizing cosine similarity 0.5 between the query and
the stored record. -/
noncomputable def c1Deps : Deps ℝ :=
  { embed := fun s => if s = "q" then .ok [1, 0] else .ok [1, Real.sqrt 3]
    complete := fun _ => .ok ""
    parseFloat := fun _ => .ok 5
    exp := Real.exp
    sqrt := Real.sqrt
    sortSlice := sortSliceStable }

/-- The scenario record: importance 8, last accessed 2 hours before the
call instant 0. -/
noncomputable def c1rec : MemoryObject ℝ :=
  { description := "m", creationTime := 0, lastAccessedTime := -2,
    importance := 8, embedding := [1, Real.sqrt 3] }

theorem cos_query_c1rec :
    cosineSimilarity Real.sqrt [(1:ℝ), 0] [1, Real.sqrt 3] = 1/2 := by
  have h3 : Real.sqrt 3 * Real.sqrt 3 = 3 := Real.mul_self_sqrt (by norm_num)
  have hda : dotProduct [(1:ℝ), 0] [1, 0] = 1 := by norm_num [dotProduct]
  have hdb : dotProduct [(1:ℝ), Real.sqrt 3] [1, Real.sqrt 3] = 4 := by
    simp only [dotProduct]
    rw [h3]; norm_num
  have hdab : dotProduct [(1:ℝ), 0] [1, Real.sqrt 3] = 1 := by
    simp only [dotProduct]; norm_num
  have h4 : Real.sqrt 4 = 2 := by
    rw [show (4:ℝ) = 2^2 by norm_num, Real.sqrt_sq (by norm_num : (0:ℝ) ≤ 2)]
  rw [cosineSimilarity, hda, hdb, hdab, if_neg (by norm_num), Real.sqrt_one, h4]
  norm_num

theorem c1_retrieve_score_formula_witness :
    (retrieveMemories c1Deps 0 [c1rec] "q").2 =
      .ok [⟨c1rec, 1/2 + Real.exp (-(1/12)) + 8/10⟩] ∧
    |((1:ℝ)/2 + Real.exp (-(1/12)) + 8/10) - 2.220| ≤ 0.01 :=
  c1_retrieve_score_formula.2 c1Deps sortSliceStable_ok rfl 0 c1rec "q" [1, 0]
    (by simp [c1Deps]) (by simp [c1Deps, c1rec]) cos_query_c1rec
    rfl (by norm_num [c1rec])

/-! ## Retrieval ordering (C2) -/

/-- Concrete records yielding equal retrieval scores (same embedding,
importance and access time; distinct descriptions). -/
def recA : MemoryObject ℚ := ⟨"A", 0, 0, 5, [1]⟩

def recB : MemoryObject ℚ := ⟨"B", 0, 0, 5, [1]⟩

/-- `plainDeps` with the tie-reversing (yet contract-satisfying)
`sort.Slice` behaviour. -/
def antiDeps : Deps ℚ :=
  { plainDeps with sortSlice := sortSliceAnti }

/-- Claim C2 (amended): a successful `Retrieve` returns records sorted by
non-increasing score; the relative order of equal-score records is NOT
specified (the sort.Slice contract does not promise stability). -/
theorem c2_retrieve_sorted_descending [LinearOrderedField K] (d : Deps K)
    (hd : SortContractOK d.sortSlice) (now : K) (ms : List (MemoryObject K))
    (query : String) (out : List (RetrievedMemory K))
    (h : (retrieveMemories d now ms query).2 = .ok out) :
    List.Pairwise (fun a b : RetrievedMemory K => b.score ≤ a.score) out := by
  obtain ⟨qe, scored, _, hl, hout, _⟩ := retrieveMemories_ok_parts d now ms query out h
  have hchain := (hd scoreDescending scored).2
    (fun a b hab => scoreDescending_asymm a b hab)
    (fun a b c hab hbc => scoreDescending_ftrans a b c hab hbc)
  rw [hout]
  have hchain' : List.Chain' (fun a b : RetrievedMemory K => b.score ≤ a.score)
      (d.sortSlice scoreDescending scored) := by
    refine List.Chain'.imp ?_ hchain
    intro a b hab
    exact (scoreDescending_false_iff b a).mp hab
  letI : IsTrans (RetrievedMemory K) (fun a b : RetrievedMemory K => b.score ≤ a.score) :=
    ⟨fun a b c h1 h2 => le_trans h2 h1⟩
  exact List.chain'_iff_pairwise.mp hchain'

theorem c2_retrieve_sorted_descending_witness :
    List.Pairwise (fun a b : RetrievedMemory ℚ => b.score ≤ a.score)
      [⟨recA, 3/2⟩, ⟨recB, 3/2⟩] :=
  c2_retrieve_sorted_descending plainDeps sortSliceStable_ok 0 [recA, recB] "q"
    [⟨recA, 3/2⟩, ⟨recB, 3/2⟩] (by
      simp only [retrieveMemories, retrieveLoop, cosineSimilarity, dotProduct,
        plainDeps, recA, recB, sortSliceStable, List.insertionSort,
        List.orderedInsert, scoreDescending]
      norm_num [List.insertionSort, List.orderedInsert, scoreDescending])

/-- Claim C2 counterexample: the claim's stability part fails.  With a
contract-satisfying `sort.Slice` behaviour (stable sort of the reversed
list — permitted, since the contract does not promise stability), two
equal-score records come back in reversed chronological order.  Stability
is stated as: filtering the output at any score value yields the same
sequence as filtering the chronologically scored list. -/
theorem c2_counterexample :
    ¬ (∀ (d : Deps ℚ), SortContractOK d.sortSlice →
        ∀ (now : ℚ) (ms : List (MemoryObject ℚ)) (query : String) (qe : List ℚ)
          (scored out : List (RetrievedMemory ℚ)),
          d.embed query = .ok qe →
          (retrieveLoop d qe now ms).2 = .ok scored →
          (retrieveMemories d now ms query).2 = .ok out →
          (List.Pairwise (fun a b : RetrievedMemory ℚ => b.score ≤ a.score) out ∧
           ∀ s : ℚ, out.filter (fun r => decide (r.score = s)) =
             scored.filter (fun r => decide (r.score = s)))) := by
  intro hclaim
  have hscored : (retrieveLoop antiDeps [1] 0 [recA, recB]).2 =
      .ok [⟨recA, 3/2⟩, ⟨recB, 3/2⟩] := by
    simp only [retrieveLoop, cosineSimilarity, dotProduct, antiDeps, plainDeps,
      recA, recB]
    norm_num
  have hout : (retrieveMemories antiDeps 0 [recA, recB] "q").2 =
      .ok [⟨recB, 3/2⟩, ⟨recA, 3/2⟩] := by
    simp only [retrieveMemories, retrieveLoop, cosineSimilarity, dotProduct,
      antiDeps, plainDeps, recA, recB, sortSliceAnti, sortSliceStable,
      List.insertionSort, List.orderedInsert, scoreDescending,
      List.reverse_cons, List.reverse_nil, List.nil_append, List.cons_append]
    norm_num [List.insertionSort, List.orderedInsert, scoreDescending]
  have h := (hclaim antiDeps sortSliceAnti_ok 0 [recA, recB] "q" [1]
    [⟨recA, 3/2⟩, ⟨recB, 3/2⟩] [⟨recB, 3/2⟩, ⟨recA, 3/2⟩]
    rfl hscored hout).2 (3/2)
  simp [List.filter, recA, recB] at h

/-! ## Reflect unfolding equations -/

theorem reflect_questionsErr [LinearOrderedField K] (d : Deps K) (now : K)
    (memories ms : List (MemoryObject K)) (e : String)
    (h : generateReflectionQuestions d.complete
      (memories.map (fun m => m.description)) = .error e) :
    reflect d now memories ms = (ms, .error e) := by
  rw [reflect, h]

theorem reflect_questionsOk [LinearOrderedField K] (d : Deps K) (now : K)
    (memories ms : List (MemoryObject K)) (qs : List String)
    (h : generateReflectionQuestions d.complete
      (memories.map (fun m => m.description)) = .ok qs) :
    reflect d now memories ms = reflectLoop d now ms qs := by
  rw [reflect, h]

theorem reflectLoop_cons_retrieveErr [LinearOrderedField K] (d : Deps K) (now : K)
    (ms ms' : List (MemoryObject K)) (q : String) (rest : List String) (e : String)
    (hret : retrieveMemories d now ms q = (ms', .error e)) :
    reflectLoop d now ms (q :: rest) = (ms', .error e) := by
  rw [reflectLoop, hret]

theorem reflectLoop_cons_insightsErr [LinearOrderedField K] (d : Deps K) (now : K)
    (ms ms' : List (MemoryObject K)) (q : String) (rest : List String)
    (r : List (RetrievedMemory K)) (e : String)
    (hret : retrieveMemories d now ms q = (ms', .ok r))
    (hins : generateInsights d.complete q r = .error e) :
    reflectLoop d now ms (q :: rest) = (ms', .error e) := by
  rw [reflectLoop, hret]
  dsimp only
  rw [hins]

theorem reflectLoop_cons_ok [LinearOrderedField K] (d : Deps K) (now : K)
    (ms ms' : List (MemoryObject K)) (q : String) (rest : List String)
    (r : List (RetrievedMemory K)) (insights : List String)
    (hret : retrieveMemories d now ms q = (ms', .ok r))
    (hins : generateInsights d.complete q r = .ok insights) :
    reflectLoop d now ms (q :: rest) =
      reflectLoop d now (appendInsights d now ms' insights) rest := by
  rw [reflectLoop, hret]
  dsimp only
  rw [hins]

/-! ## Reflect failure policy (C3) -/

/-- Claim C3 (amended): a failure in question generation, in retrieval, or
in insight generation aborts the rest of the pass immediately and is
returned to the caller, with every insight appended before the failure
point still committed; in particular, if the insight completion for the
second question fails, `Reflect` returns that failure and the store state
is exactly the first question's commits (as touched by the second
question's retrieval).  However — unlike what the claim states — a failure
while APPENDING an insight is silently discarded: the pass continues and
`Reflect` reports success. -/
theorem c3_failure_policy [LinearOrderedField K] (d : Deps K) (now : K) :
    (∀ (memories ms : List (MemoryObject K)) (e : String),
      generateReflectionQuestions d.complete
        (memories.map (fun m => m.description)) = .error e →
      reflect d now memories ms = (ms, .error e))
  ∧ (∀ (memories ms ms1 ms2 : List (MemoryObject K)) (q1 q2 : String)
       (rest : List String) (r1 r2 : List (RetrievedMemory K))
       (ins1 : List String) (e : String),
      generateReflectionQuestions d.complete
        (memories.map (fun m => m.description)) = .ok (q1 :: q2 :: rest) →
      retrieveMemories d now ms q1 = (ms1, .ok r1) →
      generateInsights d.complete q1 r1 = .ok ins1 →
      retrieveMemories d now (appendInsights d now ms1 ins1) q2 = (ms2, .ok r2) →
      generateInsights d.complete q2 r2 = .error e →
      reflect d now memories ms = (ms2, .error e))
  ∧ (∀ (memories ms ms1 : List (MemoryObject K)) (q1 : String)
       (r1 : List (RetrievedMemory K)) (ins1 : List String),
      generateReflectionQuestions d.complete
        (memories.map (fun m => m.description)) = .ok [q1] →
      retrieveMemories d now ms q1 = (ms1, .ok r1) →
      generateInsights d.complete q1 r1 = .ok ins1 →
      reflect d now memories ms = (appendInsights d now ms1 ins1, .ok ())) := by
  refine ⟨fun memories ms e h => reflect_questionsErr d now memories ms e h,
    fun memories ms ms1 ms2 q1 q2 rest r1 r2 ins1 e hqs hr1 hins1 hr2 hins2 => ?_,
    fun memories ms ms1 q1 r1 ins1 hqs hr1 hins1 => ?_⟩
  · rw [reflect_questionsOk d now memories ms _ hqs,
      reflectLoop_cons_ok d now ms ms1 q1 (q2 :: rest) r1 ins1 hr1 hins1,
      reflectLoop_cons_insightsErr d now _ ms2 q2 rest r2 e hr2 hins2]
  · rw [reflect_questionsOk d now memories ms _ hqs,
      reflectLoop_cons_ok d now ms ms1 q1 [] r1 ins1 hr1 hins1,
      reflectLoop]

/-- Scenario dependencies: two questions parse; the first question's
insight completion succeeds, every other completion (including the second
question's insight call and the importance rating) fails. -/
def c3ScenDeps : Deps ℚ :=
  { plainDeps with
      complete := fun r =>
        if r.system = reflectionQuestionsSys then .ok "Q1\nQ2"
        else if r.user = "Statements about the question \"Q1\":\n" then .ok "I1"
        else .error "llm down" }

theorem c3_failure_policy_witness :
    reflect c3ScenDeps 0 [] [] = ([], .error "llm down") :=
  (c3_failure_policy c3ScenDeps 0).2.1 [] [] [] [] "Q1" "Q2" [] [] []
    ["I1"] "llm down" rfl rfl rfl rfl rfl

/-- Dependencies where appending the insight fails (its embedding call
errors) while everything else succeeds. -/
def c3Deps : Deps ℚ :=
  { plainDeps with
      embed := fun s => if s = "Foo" then .error "boom" else .ok [1]
      complete := fun r =>
        if r.system = reflectionQuestionsSys then .ok "Q" else .ok "Foo" }

/-- Claim C3 counterexample: an external-call failure at the
append-an-insight step is neither returned to the caller nor does it abort
anything — the pass runs the failing `AddMemory` (conjuncts 1–4 trace the
pass up to it) and `Reflect` still returns success (conjunct 5). -/
theorem c3_counterexample :
    generateReflectionQuestions c3Deps.complete [] = .ok ["Q"] ∧
    retrieveMemories c3Deps 0 [] "Q" = ([], .ok []) ∧
    generateInsights c3Deps.complete "Q" ([] : List (RetrievedMemory ℚ)) = .ok ["Foo"] ∧
    addMemory c3Deps 0 [] "Foo" = ([], .error "failed to get embedding: boom") ∧
    reflect c3Deps 0 [] [] = ([], .ok ()) :=
  ⟨rfl, rfl, rfl, rfl, rfl⟩

/-! ## Reflection feedback (C4) -/

/-- Claim C4 (amended): the store shared across the pass GROWS between
questions — an insight appended for an earlier question is part of the
store a later question's retrieval scans, and (since retrieval returns
every record) shows up among that retrieval's results. -/
theorem c4_insights_feed_back [LinearOrderedField K] (d : Deps K)
    (hd : SortContractOK d.sortSlice) (now : K)
    (ms1 ms2 : List (MemoryObject K)) (q2 insight : String)
    (r2 : List (RetrievedMemory K)) (v : List K) (imp : K)
    (hemb : d.embed insight = .ok v)
    (hrate : rateImportance d insight = .ok imp)
    (hr2 : retrieveMemories d now (appendInsights d now ms1 [insight]) q2 =
      (ms2, .ok r2)) :
    insight ∈ r2.map (fun x => x.memory.description) := by
  have happ : appendInsights d now ms1 [insight] =
      ms1 ++ [⟨insight, now, now, imp, v⟩] := by
    rw [appendInsights, addMemory_ok d now ms1 insight v imp hemb hrate]
    rfl
  have h2 : (retrieveMemories d now (appendInsights d now ms1 [insight]) q2).2 =
      .ok r2 := by rw [hr2]
  obtain ⟨qe, scored, hq, hl, hout, _⟩ :=
    retrieveMemories_ok_parts d now _ q2 r2 h2
  have hmems := retrieveLoop_ok_memories d qe now _ scored hl
  rw [happ] at hmems
  have hin : (⟨insight, now, now, imp, v⟩ : MemoryObject K) ∈
      scored.map (fun r => r.memory) := by
    rw [hmems]; simp
  rw [List.mem_map] at hin
  obtain ⟨x, hx, hxm⟩ := hin
  refine List.mem_map.mpr ⟨x, ?_, by rw [hxm]⟩
  rw [hout]
  exact ((hd scoreDescending scored).1.mem_iff).mpr hx

/-- Dependencies driving a two-question pass whose first question yields
the single insight `"I1"`, successfully appended. -/
def c4Deps : Deps ℚ :=
  { plainDeps with
      complete := fun r =>
        if r.system = reflectionQuestionsSys then .ok "Q1\nQ2"
        else if r.user = "Statements about the question \"Q1\":\n" then .ok "I1"
        else .ok "" }

/-- The record `AddMemory` creates for the insight `"I1"` at instant 0. -/
def i1rec : MemoryObject ℚ :=
  { description := "I1", creationTime := 0, lastAccessedTime := 0,
    importance := 5, embedding := [1] }

theorem c4_insights_feed_back_witness :
    "I1" ∈ List.map (fun x : RetrievedMemory ℚ => x.memory.description)
      [⟨i1rec, 3/2⟩] :=
  c4_insights_feed_back c4Deps sortSliceStable_ok 0 [] [i1rec] "Q2" "I1"
    [⟨i1rec, 3/2⟩] [1] 5 rfl rfl (by
      have happ : appendInsights c4Deps 0 [] ["I1"] = [i1rec] := rfl
      rw [happ]
      have hloop : retrieveLoop c4Deps [1] 0 [i1rec] =
          ([i1rec], .ok [⟨i1rec, 3/2⟩]) := by
        rw [retrieveLoop_cons_ok c4Deps [1] 0 i1rec [] [1] [] [] rfl rfl]
        norm_num [cosineSimilarity, dotProduct, c4Deps, plainDeps, i1rec]
      rw [retrieveMemories_ok_eq c4Deps 0 [i1rec] [i1rec] "Q2" [1]
        [⟨i1rec, 3/2⟩] rfl hloop]
      rfl)

/-- Claim C4 counterexample: in a concrete two-question pass the insight
`"I1"` appended for the first question appears in the second question's
retrieval results (conjunct 5), although no record with that description
existed before the pass (conjunct 7, the initial store is empty). -/
theorem c4_counterexample :
    generateReflectionQuestions c4Deps.complete [] = .ok ["Q1", "Q2"] ∧
    retrieveMemories c4Deps 0 [] "Q1" = ([], .ok []) ∧
    generateInsights c4Deps.complete "Q1" ([] : List (RetrievedMemory ℚ)) = .ok ["I1"] ∧
    appendInsights c4Deps 0 [] ["I1"] = [i1rec] ∧
    (retrieveMemories c4Deps 0 [i1rec] "Q2").2 = .ok [⟨i1rec, 3/2⟩] ∧
    reflect c4Deps 0 [] [] = ([i1rec], .ok ()) ∧
    i1rec.description = "I1" ∧
    ∀ m ∈ ([] : List (MemoryObject ℚ)), m.description ≠ "I1" := by
  refine ⟨rfl, rfl, rfl, rfl, ?_, rfl, rfl, by simp⟩
  have hloop : retrieveLoop c4Deps [1] 0 [i1rec] =
      ([i1rec], .ok [⟨i1rec, 3/2⟩]) := by
    rw [retrieveLoop_cons_ok c4Deps [1] 0 i1rec [] [1] [] [] rfl rfl]
    norm_num [cosineSimilarity, dotProduct, c4Deps, plainDeps, i1rec]
  rw [retrieveMemories_ok_eq c4Deps 0 [i1rec] [i1rec] "Q2" [1]
    [⟨i1rec, 3/2⟩] rfl hloop]
  rfl

/-! ## Zero questions parsed (C6) -/

/-- Claim C6 (amended): when the question-generation completion succeeds
but zero questions parse, `Reflect` does NOT fail — it returns success
immediately, leaving the store unchanged (the source has no emptiness
check and no `EmptyReflectionResult` error). -/
theorem c6_zero_questions_succeeds [LinearOrderedField K] (d : Deps K) (now : K)
    (memories ms : List (MemoryObject K)) (out : String)
    (hc : d.complete ⟨reflectionQuestionsSys,
      String.intercalate "\n" (memories.map (fun m => m.description))⟩ = .ok out)
    (hz : parseQuestions out = []) :
    reflect d now memories ms = (ms, .ok ()) := by
  have hq : generateReflectionQuestions d.complete
      (memories.map (fun m => m.description)) = .ok [] := by
    rw [generateReflectionQuestions, hc]
    dsimp only
    rw [hz]
  rw [reflect_questionsOk d now memories ms [] hq, reflectLoop]

theorem c6_zero_questions_succeeds_witness :
    reflect plainDeps 0 [] [recW] = ([recW], .ok ()) :=
  c6_zero_questions_succeeds plainDeps 0 [] [recW] "" rfl rfl

/-- Claim C6 counterexample: a run in which the completion succeeds and
zero questions parse, yet `Reflect` returns success (with an untouched
store) instead of an `EmptyReflectionResult` failure. -/
theorem c6_counterexample :
    plainDeps.complete ⟨reflectionQuestionsSys, ""⟩ = .ok "" ∧
    parseQuestions "" = [] ∧
    reflect plainDeps 0 [] [recA, recB] = ([recA, recB], .ok ()) :=
  ⟨rfl, rfl, rfl⟩
